import Mathlib

/-!
Verification of the acquisition-controller hierarchy in
`pytopo/rf/alazar_acquisition.py`.

The Python module is shallowly embedded: numpy arrays become functions from
indices to values, unsigned-integer accumulators become `ℕ`, floating-point
arithmetic on exactly representable dyadic values becomes `ℚ`, and fallible
numpy operations return `Except String`.  Hardware parameters that the
controllers read through qcodes getters (`sample_rate()`,
`samples_per_record()`, ...) become explicit arguments, collected in
`AcqParams`.
-/

namespace Alazar

/-- Acquisition parameters read from the Alazar driver
(`BaseAcqCtl.__init__`, lines 30-50): `sample_rate`, `samples_per_record`,
`records_per_buffer`, `buffers_per_acquisition`. -/
structure AcqParams where
  sample_rate : ℚ
  samples_per_record : ℕ
  records_per_buffer : ℕ
  buffers_per_acquisition : ℕ

/-- `self.number_of_channels = 2`, set once in `BaseAcqCtl.__init__`
(line 17) and never reassigned anywhere in the module. -/
def number_of_channels : ℕ := 2

/-- `BaseAcqCtl.MINSAMPLES = 384` (line 13). -/
def MINSAMPLES : ℤ := 384

/-- `BaseAcqCtl.time2samples` (lines 84-90):
`nsamples = int(t * sample_rate // 128 * 128)`; 128 is added when
`nsamples / sample_rate < t`; the result is `max(MINSAMPLES, nsamples)`.
Python float floor-division `// 128` is `Int.floor` of the exact quotient,
and `int()` of the already integral product is the identity. -/
def time2samples (sr t : ℚ) : ℤ :=
  max MINSAMPLES
    (if ((⌊t * sr / 128⌋ * 128 : ℤ) : ℚ) / sr < t
     then ⌊t * sr / 128⌋ * 128 + 128
     else ⌊t * sr / 128⌋ * 128)

/-- Python `int()` applied to a float: truncation toward zero. -/
def int_trunc (x : ℚ) : ℤ := if 0 ≤ x then ⌊x⌋ else ⌈x⌉

/-- `self.period = int(self.sample_rate() / self.demod_frq() + 0.5)`
(lines 220, 400, 459). -/
def demodPeriod (sr frq : ℚ) : ℤ := int_trunc (sr / frq + 1 / 2)

/-- `self.demod_samples = self.samples_per_record() // self.period`
(lines 221, 401, 460); both operands are nonnegative integers, so Python
floor-division agrees with `Nat` division.  (For `period = 0` Python would
raise `ZeroDivisionError`; all claims below use a positive period.) -/
def demod_samples (spr period : ℕ) : ℕ := spr / period

/-- Physical buffer shape chosen in `BaseAcqCtl.pre_start_capture`
(lines 97-107): `brsc` gives `(records, samples, channels)`, `bcrs` gives
`(channels, records, samples)`, anything else raises `ValueError`. -/
def buffer_shape (order : String) (p : AcqParams) : Except String (ℕ × ℕ × ℕ) :=
  if order = "brsc" then
    Except.ok (p.records_per_buffer, p.samples_per_record, number_of_channels)
  else if order = "bcrs" then
    Except.ok (number_of_channels, p.records_per_buffer, p.samples_per_record)
  else
    Except.error ("Unknown buffer order " ++ order)

/-- Total element count of a three-dimensional shape. -/
def elem_count (s : ℕ × ℕ × ℕ) : ℕ := s.1 * s.2.1 * s.2.2

/-- C-order (numpy default) reinterpretation of a flat buffer as a
three-dimensional array: element `(i, j, k)` of shape `(a, b, c)` is flat
element `(i * b + j) * c + k`.  Models `data.shape = self.buffer_shape`
in `BaseAcqCtl.handle_buffer` (line 126). -/
def reshape3 (shape : ℕ × ℕ × ℕ) (flat : ℕ → ℤ) : ℕ → ℕ → ℕ → ℤ :=
  fun i j k => flat ((i * shape.2.1 + j) * shape.2.2 + k)

/-- Logical `(record, sample, channel)` view produced by
`BaseAcqCtl.handle_buffer` (lines 126-128): reshape to the physical buffer
shape, then for `bcrs` apply `transpose((1, 2, 0))`, whose result at index
`(i, j, k)` is the physical element at `(k, i, j)`. -/
def handle_view (order : String) (p : AcqParams) (flat : ℕ → ℤ) :
    Except String (ℕ → ℕ → ℕ → ℤ) :=
  if order = "brsc" then
    Except.ok (reshape3 (p.records_per_buffer, p.samples_per_record, number_of_channels) flat)
  else if order = "bcrs" then
    Except.ok (fun i j k =>
      reshape3 (number_of_channels, p.records_per_buffer, p.samples_per_record) flat k i j)
  else
    Except.error ("Unknown buffer order " ++ order)

/-- One element of the logical view. -/
def view_elem (order : String) (p : AcqParams) (flat : ℕ → ℤ)
    (i j k : ℕ) : Except String ℤ :=
  Except.map (fun v => v i j k) (handle_view order p flat)

/-- Numpy row assignment `self.data[k] = processed`
(`BaseAcqCtl.handle_buffer`, line 134) on the flattened accumulator, where
`L` is the number of scalar elements in one buffer slot: positions
`k * L ≤ n < (k + 1) * L` receive the processed data, all others are kept. -/
def row_assign (L : ℕ) (data : ℕ → ℤ) (k : ℕ) (processed : ℕ → ℤ) : ℕ → ℤ :=
  fun n => if k * L ≤ n ∧ n < (k + 1) * L then processed (n - k * L) else data n

/-- `BaseAcqCtl.handle_buffer` accumulation step (lines 130-134):
`if buffer_number is None or self._average_buffers: self.data += processed
else: self.data[buffer_number] = processed`.  The accumulator and the
processed buffer are modelled as flattened arrays. -/
def handle_buffer (average_buffers : Bool) (buffer_number : Option ℕ) (L : ℕ)
    (data processed : ℕ → ℤ) : ℕ → ℤ :=
  match buffer_number, average_buffers with
  | none, _ => fun n => data n + processed n
  | some _, true => fun n => data n + processed n
  | some k, false => row_assign L data k processed

/-- Finalization of one accumulator element
(`RawAcqCtl.post_acquire` lines 195-200, `AvgBufCtl.post_acquire` lines
321-326, `AvgRecCtl.post_acquire` lines 371-376, and the identical
normalization inside `DemodCtl.post_acquire` lines 264-267):
`np.right_shift(data, 4)` when `_nbits == 12`, then
`data.astype(np.float32) / 2**nbits - 0.5`.  The accumulator holds
nonnegative integers; `right_shift` by 4 is division by 16.  All concrete
values used below are exactly representable in float32, so exact `ℚ`
arithmetic coincides with the float32 computation. -/
def post_acquire_norm (nbits a : ℕ) : ℚ :=
  let d : ℕ := if nbits = 12 then a / 2 ^ 4 else a
  (d : ℚ) / 2 ^ nbits - 1 / 2

/-- Models the numpy shape-inference rule for `np.reshape` with one `-1`
entry (numpy `shape.c`, `_fix_unknown_dimension`): with `size` the number of
elements of the array and `known` the explicitly given dimensions, the
unknown dimension is `size / prod known`; if `prod known = 0` or it does not
divide `size`, numpy raises
`ValueError: cannot reshape array of size ... into shape ...`. -/
def np_reshape_infer (size : ℕ) (known : List ℕ) : Except String ℕ :=
  let p := known.foldl (fun a b => a * b) 1
  if p = 0 ∨ size % p ≠ 0 then Except.error "cannot reshape array"
  else Except.ok (size / p)

/-- `RawAcqCtl.data_shape` (lines 158-173): the full
`(buffers, records, samples, channels)` shape, or its tail when
`_average_buffers` is set. -/
def RawAcqCtl.data_shape (p : AcqParams) (average_buffers : Bool) : List ℕ :=
  let shp := [p.buffers_per_acquisition, p.records_per_buffer,
              p.samples_per_record, number_of_channels]
  if average_buffers then shp.tail else shp

/-- `DemodCtl.data_shape` (lines 213-233). -/
def DemodCtl.data_shape (p : AcqParams) (frq : ℚ) : List ℕ :=
  let period := (demodPeriod p.sample_rate frq).toNat
  [p.buffers_per_acquisition, p.records_per_buffer,
   demod_samples p.samples_per_record period, number_of_channels]

/-- `AvgBufCtl.data_shape` (lines 295-305). -/
def AvgBufCtl.data_shape (p : AcqParams) : List ℕ :=
  [p.records_per_buffer, p.samples_per_record, number_of_channels]

/-- `AvgRecCtl.data_shape` (lines 344-354). -/
def AvgRecCtl.data_shape (p : AcqParams) : List ℕ :=
  [p.buffers_per_acquisition, p.samples_per_record, number_of_channels]

/-- `AvgDemodCtl.data_shape` (lines 393-408). -/
def AvgDemodCtl.data_shape (p : AcqParams) (frq : ℚ) : List ℕ :=
  let period := (demodPeriod p.sample_rate frq).toNat
  [p.records_per_buffer, demod_samples p.samples_per_record period,
   number_of_channels]

/-- `AvgRecDemodCtl.data_shape` (lines 452-467): the source returns
`(self.records_per_buffer(), self.demod_samples, self.number_of_channels)`
— note the first entry is `records_per_buffer`, transcribed verbatim from
line 465. -/
def AvgRecDemodCtl.data_shape (p : AcqParams) (frq : ℚ) : List ℕ :=
  let period := (demodPeriod p.sample_rate frq).toNat
  [p.records_per_buffer, demod_samples p.samples_per_record period,
   number_of_channels]

/-- `AvgRecDemodCtl.data_dims` (lines 469-476). -/
def AvgRecDemodCtl.data_dims : List String := ["buffers", "IF_periods", "channels"]

/-- `AvgIQCtl.data_shape` (lines 507-518). -/
def AvgIQCtl.data_shape (p : AcqParams) : List ℕ :=
  [p.records_per_buffer, number_of_channels]

/-- `AvgRecIQCtl.data_shape` (lines 546-557). -/
def AvgRecIQCtl.data_shape (p : AcqParams) : List ℕ :=
  [p.buffers_per_acquisition, number_of_channels]

/-- The `-1` dimension numpy infers in the `reshape` of
`AvgRecDemodCtl.post_acquire` (lines 490-491): the accumulator allocated in
`AvgRecDemodCtl.pre_start_capture` (lines 480-484) has shape
`(buffers_per_acquisition, samples_per_record, channels)`; after the slice
`[:, :demod_samples * period, :]` the array has
`buffers * (demod_samples * period) * channels` elements and is reshaped to
`(-1, demod_samples, period, channels)`, so the inferred first dimension of
the finalized output is `buffers_per_acquisition`. -/
def AvgRecDemodCtl.output_first_dim (p : AcqParams) (frq : ℚ) : Except String ℕ :=
  let period := (demodPeriod p.sample_rate frq).toNat
  let ds := demod_samples p.samples_per_record period
  np_reshape_infer (p.buffers_per_acquisition * (ds * period) * number_of_channels)
    [ds, period, number_of_channels]

/-- The `-1` inference in the `reshape` of `AvgDemodCtl.post_acquire`
(lines 431-432): the accumulator has shape
`(records_per_buffer, samples_per_record, channels)` (lines 421-425), the
sliced array has `records * (demod_samples * period) * channels` elements
and is reshaped to `(-1, demod_samples, period, channels)`. -/
def AvgDemodCtl.finalize_reshape (p : AcqParams) (frq : ℚ) : Except String ℕ :=
  let period := (demodPeriod p.sample_rate frq).toNat
  let ds := demod_samples p.samples_per_record period
  np_reshape_infer (p.records_per_buffer * (ds * period) * number_of_channels)
    [ds, period, number_of_channels]

/-- One demodulated output sample of the demodulation step shared by
`DemodCtl.post_acquire` (lines 269-274) and
`AvgDemodCtl.post_acquire`/`AvgRecDemodCtl.post_acquire` (lines 431-434,
490-493), along the samples axis of one record/channel slice (the operation
is elementwise in the record and channel axes): multiply the normalized
series by `2 * basis`, truncate to `demod_samples * period` samples, reshape
the sample axis to `(demod_samples, period)` and take `mean(axis=-2)`, so
output sample `k` is the mean over `j < period` of
`2 * basis (k * period + j) * series (k * period + j)`.  Here `basis`
stands for the cosine (resp. sine) array
`np.cos(2 * pi * demod_frq * tvals)`. -/
def demod_component (period : ℕ) (basis series : ℕ → ℚ) (k : ℕ) : ℚ :=
  (∑ j in Finset.range period,
    2 * basis (k * period + j) * series (k * period + j)) / (period : ℚ)

/-- The `AvgDemodCtl` path for one record/channel slice: `handle_buffer`
sums all raw buffers into the single-slot accumulator (line 131), then
`post_acquire` normalizes the sum once (via `AvgBufCtl.post_acquire`,
lines 321-326) and demodulates it (lines 431-435). -/
def avgdemod_output (nbuffers period nbits : ℕ) (basis : ℕ → ℚ)
    (bufs : ℕ → ℕ → ℕ) (k : ℕ) : ℚ :=
  demod_component period basis
    (fun n => post_acquire_norm nbits (∑ b in Finset.range nbuffers, bufs b n)) k

/-- The `DemodCtl` path followed by a mean over the buffer axis: each raw
buffer is stored (line 134), normalized and demodulated individually
(`DemodCtl.post_acquire`, lines 263-276), and the complex results are
averaged over buffers. -/
def demod_then_mean (nbuffers period nbits : ℕ) (basis : ℕ → ℚ)
    (bufs : ℕ → ℕ → ℕ) (k : ℕ) : ℚ :=
  (∑ b in Finset.range nbuffers,
    demod_component period basis (fun n => post_acquire_norm nbits (bufs b n)) k) /
    (nbuffers : ℚ)

/-- Exact values of the cosine basis
`np.cos(2 * pi * demod_frq * n / sample_rate)` for
`demod_frq / sample_rate = 1 / 4` (so `period = 4`): `cos(pi * n / 2)`
cycles through `1, 0, -1, 0`. -/
def cosQuarter (n : ℕ) : ℚ :=
  if n % 4 = 0 then 1 else if n % 4 = 2 then -1 else 0

/-- Two identical raw buffers (one record, one channel slice), each with
sample value 16 at sample 0 and 0 elsewhere; the value 16 keeps the 4-bit
right shift exact. -/
def cexBuffers (_b n : ℕ) : ℕ :=
  if n = 0 then 16 else 0

/-- Evaluation of the demodulation period for `sample_rate = 4`,
`demod_frq = 1`: `int(4 / 1 + 0.5) = 4`. -/
theorem demodPeriod_quarter : demodPeriod 4 1 = 4 := by
  unfold demodPeriod int_trunc
  have h : (4 : ℚ) / 1 + 1 / 2 = 9 / 2 := by norm_num
  rw [h, if_pos (by norm_num : (0 : ℚ) ≤ 9 / 2), Int.floor_eq_iff]
  constructor <;> norm_num

/-- Evaluation of the demodulation period for `sample_rate = 10^9`,
`demod_frq = 5 * 10^7`: `int(20 + 0.5) = 20`. -/
theorem demodPeriod_gigahertz : demodPeriod 1000000000 50000000 = 20 := by
  unfold demodPeriod int_trunc
  have h : (1000000000 : ℚ) / 50000000 + 1 / 2 = 41 / 2 := by norm_num
  rw [h, if_pos (by norm_num : (0 : ℚ) ≤ 41 / 2), Int.floor_eq_iff]
  constructor <;> norm_num

/-- Characterization of `time2samples`: rounding down to a multiple of 128
and adding 128 exactly when the rounding undershoots is rounding up to a
multiple of 128. -/
theorem time2samples_eq (sr t : ℚ) (hsr : 0 < sr) :
    time2samples sr t = max MINSAMPLES (128 * ⌈t * sr / 128⌉) := by
  unfold time2samples
  by_cases hfl : (⌊t * sr / 128⌋ : ℚ) = t * sr / 128
  · have hc : ¬ ((⌊t * sr / 128⌋ * 128 : ℤ) : ℚ) / sr < t := by
      have he : ((⌊t * sr / 128⌋ * 128 : ℤ) : ℚ) / sr = t := by
        push_cast
        rw [hfl]
        field_simp
      rw [he]
      exact lt_irrefl t
    rw [if_neg hc]
    have hceil : ⌈t * sr / 128⌉ = ⌊t * sr / 128⌋ := by
      conv_lhs => rw [← hfl]
      exact Int.ceil_intCast _
    rw [hceil, mul_comm]
  · have hlt : (⌊t * sr / 128⌋ : ℚ) < t * sr / 128 :=
      lt_of_le_of_ne (Int.floor_le _) hfl
    have hc : ((⌊t * sr / 128⌋ * 128 : ℤ) : ℚ) / sr < t := by
      rw [div_lt_iff₀ hsr]
      push_cast
      have h128 : (⌊t * sr / 128⌋ : ℚ) * 128 < (t * sr / 128) * 128 :=
        mul_lt_mul_of_pos_right hlt (by norm_num)
      calc (⌊t * sr / 128⌋ : ℚ) * 128 < (t * sr / 128) * 128 := h128
        _ = t * sr := by field_simp
    rw [if_pos hc]
    have hceil : ⌈t * sr / 128⌉ = ⌊t * sr / 128⌋ + 1 := by
      refine le_antisymm (Int.ceil_le_floor_add_one _) ?_
      exact Int.add_one_le_iff.mpr (Int.lt_ceil.mpr hlt)
    rw [hceil]
    congr 1
    ring

end Alazar

namespace Alazar

/-- C9 counterexample: the claim states the finalized value of a stored
12-bit sample `0xFFF` is `(255/4096) - 0.5 = 0.0123...`.  The code does
yield `(255/4096) - 0.5`, but that value is negative (it equals
`-0.4377...`), so it is not `0.0123...`. -/
theorem raw_fullscale_sample_not_positive :
    post_acquire_norm 12 4095 = 255 / 4096 - 1 / 2 ∧
    post_acquire_norm 12 4095 < 0 := by
  constructor <;> norm_num [post_acquire_norm]

/-- C9 (amended): finalizing a stored 12-bit raw sample of value `0xFFF`
under the Raw variant right-shifts by 4 (giving 255), divides by 4096 and
subtracts 0.5, yielding `(255/4096) - 0.5 = -1793/4096 = -0.4377...`. -/
theorem raw_fullscale_sample_value :
    post_acquire_norm 12 4095 = -1793 / 4096 := by
  norm_num [post_acquire_norm]

/-- C2: the claim asserts that for every non-demodulating variant and every
accumulator content the finalized values lie in `[-0.5, 0.5)`.  For the
AvgBuf variant the accumulator is the plain sum of the buffers
(`handle_buffer`, line 131) and `AvgBufCtl.post_acquire` never divides by
the buffer count, so after summing two full-scale left-aligned 12-bit
samples (`0xFFF0 = 65520` each) the finalized value is
`((65520 + 65520) >> 4) / 4096 - 0.5 = 3071/2048 = 1.4995...`, far outside
the claimed range. -/
theorem avgBuf_escapes_range :
    post_acquire_norm 12 (65520 + 65520) = 3071 / 2048 ∧
    ¬ post_acquire_norm 12 (65520 + 65520) < 1 / 2 := by
  constructor <;> norm_num [post_acquire_norm]

/-- C3: the claim asserts the AvgDemod path (sum all buffers, normalize and
demodulate once) agrees up to floating-point tolerance with the Demod path
followed by a mean over buffers.  With two identical buffers, `period = 4`,
and the exact cosine basis for `demod_frq = sample_rate / 4`, the AvgDemod
path yields `1/4096` while Demod-then-mean yields `1/8192`: the summed path
is larger by exactly the buffer count because `AvgDemodCtl.post_acquire`
never divides the accumulated sum by `buffers_per_acquisition`. -/
theorem avgdemod_vs_demod_mean_diverge :
    avgdemod_output 2 4 12 cosQuarter cexBuffers 0 = 1 / 4096 ∧
    demod_then_mean 2 4 12 cosQuarter cexBuffers 0 = 1 / 8192 ∧
    avgdemod_output 2 4 12 cosQuarter cexBuffers 0 ≠
      demod_then_mean 2 4 12 cosQuarter cexBuffers 0 := by
  have hA : avgdemod_output 2 4 12 cosQuarter cexBuffers 0 = 1 / 4096 := by
    simp [avgdemod_output, demod_component, post_acquire_norm, cosQuarter,
      cexBuffers, Finset.sum_range_succ]
    norm_num
  have hB : demod_then_mean 2 4 12 cosQuarter cexBuffers 0 = 1 / 8192 := by
    simp [demod_then_mean, demod_component, post_acquire_norm, cosQuarter,
      cexBuffers, Finset.sum_range_succ]
    norm_num
  refine ⟨hA, hB, ?_⟩
  rw [hA, hB]
  norm_num

/-- C1: with `records_per_buffer = 3` and `buffers_per_acquisition = 5`
(`sample_rate = 4`, `demod_frq = 1`, so `period = 4`, and
`samples_per_record = 8`, so `demod_samples = 2`),
`AvgRecDemodCtl.data_shape` reports `[3, 2, 2]` — its first entry is
`records_per_buffer` — while `AvgRecDemodCtl.data_dims` names that axis
`buffers` and the finalized output first dimension (inferred by the
reshape in `post_acquire` from the accumulator allocated in
`pre_start_capture`) is `buffers_per_acquisition = 5`. -/
theorem avgRecDemod_data_shape_mismatch :
    AvgRecDemodCtl.data_shape ⟨4, 8, 3, 5⟩ 1 = [3, 2, 2] ∧
    AvgRecDemodCtl.data_dims = ["buffers", "IF_periods", "channels"] ∧
    AvgRecDemodCtl.output_first_dim ⟨4, 8, 3, 5⟩ 1 = Except.ok 5 ∧
    (AvgRecDemodCtl.data_shape ⟨4, 8, 3, 5⟩ 1).head? ≠
      some (AcqParams.buffers_per_acquisition ⟨4, 8, 3, 5⟩) := by
  have hp : (demodPeriod 4 1).toNat = 4 := by rw [demodPeriod_quarter]; rfl
  refine ⟨?_, rfl, ?_, ?_⟩
  · simp [AvgRecDemodCtl.data_shape, hp, demod_samples, number_of_channels]
  · simp [AvgRecDemodCtl.output_first_dim, hp, demod_samples,
      np_reshape_infer, number_of_channels, List.foldl]
  · simp [AvgRecDemodCtl.data_shape, hp, demod_samples, number_of_channels]

/-- C8: with `sample_rate = 10^9`, `demod_frq = 5 * 10^7` (so
`period = 20`) and `samples_per_record = 10 < period`, `demod_samples = 0`
and `AvgDemodCtl.data_shape` reports a zero-length `IF_periods` axis
without error; but the `reshape(-1, demod_samples, period, channels)` in
`AvgDemodCtl.post_acquire` cannot infer the `-1` dimension (the known
dimensions multiply to zero), so numpy raises `ValueError` instead of
producing the empty result the claim promises. -/
theorem degenerate_demod_finalize_errors :
    demod_samples 10 ((demodPeriod 1000000000 50000000).toNat) = 0 ∧
    AvgDemodCtl.data_shape ⟨1000000000, 10, 3, 5⟩ 50000000 = [3, 0, 2] ∧
    AvgDemodCtl.finalize_reshape ⟨1000000000, 10, 3, 5⟩ 50000000 =
      Except.error "cannot reshape array" := by
  have hp : (demodPeriod 1000000000 50000000).toNat = 20 := by
    rw [demodPeriod_gigahertz]; rfl
  refine ⟨?_, ?_, ?_⟩
  · rw [hp]
    rfl
  · simp [AvgDemodCtl.data_shape, hp, demod_samples, number_of_channels]
  · simp [AvgDemodCtl.finalize_reshape, hp, demod_samples,
      np_reshape_infer, number_of_channels, List.foldl]

/-- C4: `time2samples` equals `max(384, n)` with `n` the requested count
rounded to a multiple of 128 (up exactly when rounding down undershoots),
it is monotonically non-decreasing in `t`, always a multiple of 128 (384
itself is `3 * 128`), and the returned count divided by the sample rate
covers the requested duration. -/
theorem time2samples_spec (sr t t' : ℚ) (hsr : 0 < sr) (htt : t ≤ t') :
    MINSAMPLES = 384 ∧
    time2samples sr t = max MINSAMPLES (128 * ⌈t * sr / 128⌉) ∧
    time2samples sr t ≤ time2samples sr t' ∧
    (128 : ℤ) ∣ time2samples sr t ∧
    t ≤ (time2samples sr t : ℚ) / sr := by
  refine ⟨rfl, time2samples_eq sr t hsr, ?_, ?_, ?_⟩
  · rw [time2samples_eq sr t hsr, time2samples_eq sr t' hsr]
    have hle : ⌈t * sr / 128⌉ ≤ ⌈t' * sr / 128⌉ :=
      Int.ceil_mono (div_le_div_of_nonneg_right
        (mul_le_mul_of_nonneg_right htt hsr.le) (by norm_num))
    exact max_le_max le_rfl (mul_le_mul_of_nonneg_left hle (by norm_num))
  · rw [time2samples_eq sr t hsr]
    rcases max_choice MINSAMPLES (128 * ⌈t * sr / 128⌉) with h | h <;> rw [h]
    · exact ⟨3, rfl⟩
    · exact dvd_mul_right 128 _
  · rw [time2samples_eq sr t hsr, le_div_iff₀ hsr]
    have hcast : ((max MINSAMPLES (128 * ⌈t * sr / 128⌉) : ℤ) : ℚ) =
        max 384 (128 * (⌈t * sr / 128⌉ : ℚ)) := by
      rw [Int.cast_max]
      push_cast [MINSAMPLES]
      ring_nf
    rw [hcast]
    refine le_trans ?_ (le_max_right _ _)
    calc t * sr = 128 * (t * sr / 128) := by field_simp
      _ ≤ 128 * (⌈t * sr / 128⌉ : ℚ) :=
          mul_le_mul_of_nonneg_left (Int.le_ceil _) (by norm_num)

/-- C4 witness: instantiation at `sample_rate = 2`, `t = t' = 1`. -/
theorem time2samples_spec_witness :
    (0 : ℚ) < 2 ∧ (1 : ℚ) ≤ 1 ∧
    (MINSAMPLES = 384 ∧
     time2samples 2 1 = max MINSAMPLES (128 * ⌈(1 : ℚ) * 2 / 128⌉) ∧
     time2samples 2 1 ≤ time2samples 2 1 ∧
     (128 : ℤ) ∣ time2samples 2 1 ∧
     (1 : ℚ) ≤ (time2samples 2 1 : ℚ) / 2) :=
  ⟨by norm_num, le_refl 1, time2samples_spec 2 1 1 (by norm_num) (le_refl 1)⟩

/-- C5: for `brsc` ordering the raw flat buffer is reinterpreted as
`(records_per_buffer, samples_per_record, channels)` with no permutation
(the logical view indexes the flat buffer in C order of that shape); for
`bcrs` it is reinterpreted as `(channels, records_per_buffer,
samples_per_record)` and permuted by `transpose((1, 2, 0))` to a
`(records, samples, channels)` view; any other ordering string raises; and
both physical shapes have total element count
`samples_per_record * records_per_buffer * channels`. -/
theorem buffer_geometry_spec (ord : String) (p : AcqParams) (flat : ℕ → ℤ)
    (i j k : ℕ) (h1 : ord ≠ "brsc") (h2 : ord ≠ "bcrs") :
    buffer_shape "brsc" p =
      Except.ok (p.records_per_buffer, p.samples_per_record, number_of_channels) ∧
    buffer_shape "bcrs" p =
      Except.ok (number_of_channels, p.records_per_buffer, p.samples_per_record) ∧
    view_elem "brsc" p flat i j k =
      Except.ok (flat ((i * p.samples_per_record + j) * number_of_channels + k)) ∧
    view_elem "bcrs" p flat i j k =
      Except.ok (flat ((k * p.records_per_buffer + i) * p.samples_per_record + j)) ∧
    (buffer_shape ord p).toOption = none ∧
    (handle_view ord p flat).toOption = none ∧
    elem_count (p.records_per_buffer, p.samples_per_record, number_of_channels) =
      p.samples_per_record * p.records_per_buffer * number_of_channels ∧
    elem_count (number_of_channels, p.records_per_buffer, p.samples_per_record) =
      p.samples_per_record * p.records_per_buffer * number_of_channels := by
  refine ⟨by simp [buffer_shape], by simp [buffer_shape], ?_, ?_, ?_, ?_, ?_, ?_⟩
  · simp [view_elem, handle_view, reshape3, Except.map]
  · simp [view_elem, handle_view, reshape3, Except.map]
  · unfold buffer_shape
    rw [if_neg h1, if_neg h2]
    rfl
  · unfold handle_view
    rw [if_neg h1, if_neg h2]
    rfl
  · unfold elem_count
    ring
  · unfold elem_count
    ring

/-- C5 witness: instantiation at ordering string `"xy"`, parameters
`(1, 7, 3, 5)`, the zero flat buffer, and index `(1, 2, 1)`. -/
theorem buffer_geometry_spec_witness :
    ("xy" : String) ≠ "brsc" ∧ ("xy" : String) ≠ "bcrs" ∧
    (buffer_shape "brsc" ⟨1, 7, 3, 5⟩ = Except.ok (3, 7, 2) ∧
     buffer_shape "bcrs" ⟨1, 7, 3, 5⟩ = Except.ok (2, 3, 7) ∧
     view_elem "brsc" ⟨1, 7, 3, 5⟩ (fun _ => (0 : ℤ)) 1 2 1 = Except.ok 0 ∧
     view_elem "bcrs" ⟨1, 7, 3, 5⟩ (fun _ => (0 : ℤ)) 1 2 1 = Except.ok 0 ∧
     (buffer_shape "xy" ⟨1, 7, 3, 5⟩).toOption = none ∧
     (handle_view "xy" ⟨1, 7, 3, 5⟩ (fun _ => (0 : ℤ))).toOption = none ∧
     elem_count (3, 7, 2) = 7 * 3 * 2 ∧
     elem_count (2, 3, 7) = 7 * 3 * 2) :=
  ⟨by decide, by decide,
   buffer_geometry_spec "xy" ⟨1, 7, 3, 5⟩ (fun _ => (0 : ℤ)) 1 2 1
     (by decide) (by decide)⟩

/-- C6: for positive sample rate and demodulation frequency the period is
the nearest integer to `sample_rate / demod_frq` obtained by adding 0.5 and
truncating, i.e. `round`, and `demod_samples` is the floor of
`samples_per_record / period`; concretely `sample_rate = 10^9` and
`demod_frq = 5 * 10^7` give `period = 20`, and `samples_per_record = 2000`
gives `demod_samples = 100` with zero remainder. -/
theorem demod_period_spec (sr frq : ℚ) (spr period : ℕ)
    (h1 : 0 < sr) (h2 : 0 < frq) (_h3 : 0 < period) :
    demodPeriod sr frq = round (sr / frq) ∧
    (demod_samples spr period : ℤ) = ⌊(spr : ℚ) / (period : ℚ)⌋ ∧
    demodPeriod 1000000000 50000000 = 20 ∧
    demod_samples 2000 20 = 100 ∧
    100 * 20 = 2000 := by
  refine ⟨?_, ?_, demodPeriod_gigahertz, rfl, rfl⟩
  · unfold demodPeriod int_trunc
    have h0 : (0 : ℚ) ≤ sr / frq + 1 / 2 := by positivity
    rw [if_pos h0, round_eq]
  · unfold demod_samples
    rw [Rat.floor_natCast_div_natCast]
    exact Int.natCast_div spr period

/-- C6 witness: instantiation at the scenario values. -/
theorem demod_period_spec_witness :
    (0 : ℚ) < 1000000000 ∧ (0 : ℚ) < 50000000 ∧ 0 < 20 ∧
    (demodPeriod 1000000000 50000000 = round ((1000000000 : ℚ) / 50000000) ∧
     (demod_samples 2000 20 : ℤ) = ⌊(2000 : ℚ) / (20 : ℚ)⌋ ∧
     demodPeriod 1000000000 50000000 = 20 ∧
     demod_samples 2000 20 = 100 ∧
     100 * 20 = 2000) :=
  ⟨by norm_num, by norm_num, by norm_num,
   demod_period_spec 1000000000 50000000 2000 20
     (by norm_num) (by norm_num) (by norm_num)⟩

/-- C7: when buffer averaging is in effect `handle_buffer` adds the
processed buffer elementwise into the accumulator (it does not replace it);
with per-buffer storage and explicit buffer index `k` it writes the
processed buffer into slot `k` (positions `k * L + j`, `j < L`) and leaves
every position outside slot `k` unchanged. -/
theorem handle_buffer_spec (L : ℕ) (data processed : ℕ → ℤ)
    (bn : Option ℕ) (k j n : ℕ)
    (hj : j < L) (hn : n < k * L ∨ (k + 1) * L ≤ n) :
    handle_buffer true bn L data processed n = data n + processed n ∧
    handle_buffer false (some k) L data processed (k * L + j) = processed j ∧
    handle_buffer false (some k) L data processed n = data n := by
  refine ⟨?_, ?_, ?_⟩
  · cases bn <;> rfl
  · show row_assign L data k processed (k * L + j) = processed j
    unfold row_assign
    have hlt : k * L + j < (k + 1) * L := by
      have he : (k + 1) * L = k * L + L := by ring
      omega
    rw [if_pos ⟨Nat.le_add_right _ _, hlt⟩]
    congr 1
    omega
  · show row_assign L data k processed n = data n
    unfold row_assign
    rw [if_neg (by omega)]

/-- C7 witness: instantiation at `L = 3`, `k = 2`, `j = 1`, `n = 0`. -/
theorem handle_buffer_spec_witness :
    1 < 3 ∧ (0 < 2 * 3 ∨ (2 + 1) * 3 ≤ 0) ∧
    (handle_buffer true none 3 (fun m => (m : ℤ)) (fun _ => (100 : ℤ)) 0 = 100 ∧
     handle_buffer false (some 2) 3 (fun m => (m : ℤ)) (fun _ => (100 : ℤ))
       (2 * 3 + 1) = 100 ∧
     handle_buffer false (some 2) 3 (fun m => (m : ℤ)) (fun _ => (100 : ℤ)) 0 = 0) :=
  ⟨by decide, Or.inl (by decide),
   handle_buffer_spec 3 (fun m => (m : ℤ)) (fun _ => (100 : ℤ)) none 2 1 0
     (by decide) (Or.inl (by decide))⟩

/-- C10: every controller fixes `number_of_channels` to 2 at construction,
so for every parameter set, demodulation frequency and averaging flag the
channels entry (the last entry) of every variant `data_shape`, and the
channels component of both physical buffer shapes, equal 2. -/
theorem channels_always_two (p : AcqParams) (frq : ℚ) (b : Bool) :
    number_of_channels = 2 ∧
    (RawAcqCtl.data_shape p b).getLast? = some 2 ∧
    (DemodCtl.data_shape p frq).getLast? = some 2 ∧
    (AvgBufCtl.data_shape p).getLast? = some 2 ∧
    (AvgRecCtl.data_shape p).getLast? = some 2 ∧
    (AvgDemodCtl.data_shape p frq).getLast? = some 2 ∧
    (AvgRecDemodCtl.data_shape p frq).getLast? = some 2 ∧
    (AvgIQCtl.data_shape p).getLast? = some 2 ∧
    (AvgRecIQCtl.data_shape p).getLast? = some 2 ∧
    Except.map (fun s => s.2.2) (buffer_shape "brsc" p) = Except.ok 2 ∧
    Except.map (fun s => s.1) (buffer_shape "bcrs" p) = Except.ok 2 := by
  refine ⟨rfl, ?_, rfl, rfl, rfl, rfl, rfl, rfl, rfl, rfl, rfl⟩
  cases b <;> rfl

end Alazar
